import Mathlib

/-!
Verification development for the mkdocs-filter repository.

The definitions below are a shallow embedding of the repository's Python
sources: the parsing module of the mkdocs_filter package and the MCP server
module of the docs_output_filter package.  Python strings are Lean Strings
(with most work done on their character lists), Python lists are Lean lists,
Python None-able values are Options, and the regular expressions used by the
source are hand-compiled to executable character-list matchers with the same
match semantics (leftmost search, greedy or lazy repetition as in the
pattern).  Machine-level hashing (hashlib.sha256) is embedded as an
executable SHA-256 over byte lists, with 32-bit arithmetic done in Nat
modulo 2^32.
-/

namespace MkdocsFilter

/-- Python str.strip whitespace set (the ASCII part, which is what the log
lines processed by the tool contain). -/
def pyIsSpace (c : Char) : Bool :=
  c = ' ' || c = '\t' || c = '\n' || c = '\r' || c = '\x0b' || c = '\x0c'

def lstripL (l : List Char) : List Char := l.dropWhile pyIsSpace

def rstripL (l : List Char) : List Char := (l.reverse.dropWhile pyIsSpace).reverse

def stripL (l : List Char) : List Char := rstripL (lstripL l)

/-- Python str.strip(). -/
def pyStrip (s : String) : String := String.mk (stripL s.toList)

/-- Python str.rstrip(). -/
def pyRstrip (s : String) : String := String.mk (rstripL s.toList)

/-- Literal match at the start of a character list. -/
def lpre : List Char → List Char → Bool
  | [], _ => true
  | _ :: _, [] => false
  | p :: ps, c :: cs => p = c && lpre ps cs

/-- Drop a literal from the start of a character list; none when it is not
there. -/
def dropPre : List Char → List Char → Option (List Char)
  | [], l => some l
  | _ :: _, [] => none
  | p :: ps, c :: cs => if p = c then dropPre ps cs else none

/-- Leftmost-match driver for an unanchored regular-expression search: try
the position matcher at every start position, left to right. -/
def scanFor {α : Type} (p : List Char → Option α) : List Char → Option α
  | [] => p []
  | c :: rest =>
    match p (c :: rest) with
    | some v => some v
    | none => scanFor p rest

/-- Python substring containment (the `in` operator). -/
def substrL (pat l : List Char) : Bool :=
  (scanFor (fun s => if lpre pat s then some () else none) l).isSome

def substr (pat s : String) : Bool := substrL pat.toList s.toList

def quoteChar : Char := Char.ofNat 39

/-- Character class of the regex fragment [\d.] . -/
def isDigitDot (c : Char) : Bool := c.isDigit || c = '.'

/-- Suffix test used for the \S+\.md and [^']+\.md capture groups. -/
def endsMd (l : List Char) : Bool := lpre ".md".toList.reverse l.reverse

/-- Log levels of the parsing module. -/
inductive Level
  | ERROR
  | WARNING
deriving DecidableEq

/-- String value of a Level enum member. -/
def Level.value : Level → String
  | .ERROR => "ERROR"
  | .WARNING => "WARNING"

/-- A warning or error from mkdocs output (parsing.Issue). -/
structure Issue where
  level : Level
  source : String
  message : String
  file : Option String := none
  code : Option String := none
  output : Option String := none
deriving DecidableEq

/-- Information extracted from the build output (parsing.BuildInfo). -/
structure BuildInfo where
  server_url : Option String := none
  build_dir : Option String := none
  build_time : Option String := none
deriving DecidableEq

/-- State for the streaming processor (parsing.StreamingState); the key set
of seen issues is embedded as a list of keys. -/
structure StreamingState where
  buffer : List String := []
  issues : List Issue := []
  build_info : BuildInfo := {}
  seen_issues : List (Level × String) := []
  in_markdown_exec_block : Bool := false

/-- Types of chunk boundaries in mkdocs output (parsing.ChunkBoundary). -/
inductive ChunkBoundary
  | BUILD_COMPLETE
  | SERVER_STARTED
  | REBUILD_STARTED
  | ERROR_BLOCK_END
  | NONE
deriving DecidableEq

/-- Position matcher for the regex "Documentation built in [\d.]+ seconds";
the group version is also reused by extract_build_info.  The repetition is
greedy and the following literal starts with a blank, which is not in the
class, so the run taken is the maximal one. -/
def builtHere (l : List Char) : Option (List Char) :=
  match dropPre "Documentation built in ".toList l with
  | none => none
  | some r =>
    let run := r.takeWhile isDigitDot
    let rest := r.drop run.length
    if run.isEmpty then none
    else if lpre " seconds".toList rest then some run else none

def searchBuilt (l : List Char) : Bool := (scanFor builtHere l).isSome

/-- Search for the regex "Serving on https?://" (no capture, used by
detect_chunk_boundary). -/
def servingB (l : List Char) : Bool :=
  substrL "Serving on http://".toList l || substrL "Serving on https://".toList l

/-- Anchored match for ^\d{4}-\d{2}-\d{2} . -/
def dateStartL : List Char → Bool
  | a :: b :: c :: d :: e :: f :: g :: h :: i :: j :: _ =>
    a.isDigit && b.isDigit && c.isDigit && d.isDigit && e = '-' &&
      f.isDigit && g.isDigit && h = '-' && i.isDigit && j.isDigit
  | _ => false

/-- Anchored match for ^(TOK1|...)\s*- for a token alternation. -/
def sevDashTok (toks : List (List Char)) (s : List Char) : Bool :=
  toks.any fun t =>
    match dropPre t s with
    | some r =>
      match r.dropWhile pyIsSpace with
      | c :: _ => c = '-'
      | [] => false
    | none => false

def tok3 : List (List Char) := ["INFO".toList, "WARNING".toList, "ERROR".toList]

def tok4 : List (List Char) :=
  ["INFO".toList, "DEBUG".toList, "WARNING".toList, "ERROR".toList]

/-- Lazy .*?(TOK...) tail: a token occurrence reachable without crossing a
newline (the dot of the pattern does not match newlines). -/
def tokReach (toks : List (List Char)) : List Char → Bool
  | [] => false
  | c :: rest => toks.any (fun t => lpre t (c :: rest)) || (c ≠ '\n' && tokReach toks rest)

/-- Anchored match for ^\d{4}-\d{2}-\d{2}.*?(INFO|WARNING|ERROR) . -/
def dateSevL (s : List Char) : Bool := dateStartL s && tokReach tok3 (s.drop 10)

/-- parsing.detect_chunk_boundary: detect if a line marks a chunk boundary. -/
def detect_chunk_boundary (line : String) (prev_line : Option String) : ChunkBoundary :=
  let stripped := pyStrip line
  if searchBuilt line.toList then ChunkBoundary.BUILD_COMPLETE
  else if servingB line.toList then ChunkBoundary.SERVER_STARTED
  else if substr "Detected file changes" line || substr "Reloading docs" line then
    ChunkBoundary.REBUILD_STARTED
  else if dateStartL stripped.toList && substr "Building documentation" line then
    ChunkBoundary.REBUILD_STARTED
  else
    match prev_line with
    | some p =>
      if pyStrip p = "" then
        if sevDashTok tok3 stripped.toList then ChunkBoundary.ERROR_BLOCK_END
        else if dateSevL stripped.toList then ChunkBoundary.ERROR_BLOCK_END
        else ChunkBoundary.NONE
      else ChunkBoundary.NONE
    | none => ChunkBoundary.NONE

/-- Position matcher for "Serving on (https?://\S+)", returning the capture
group.  The optional s is tried greedily; the \S+ run is maximal and must be
non-empty. -/
def servingGroupHere (l : List Char) : Option (List Char) :=
  match dropPre "Serving on http".toList l with
  | none => none
  | some rest =>
    match rest with
    | 's' :: r =>
      match dropPre "://".toList r with
      | some r2 =>
        let run := r2.takeWhile (fun c => !pyIsSpace c)
        if run.isEmpty then none else some ("https://".toList ++ run)
      | none => none
    | _ =>
      match dropPre "://".toList rest with
      | some r2 =>
        let run := r2.takeWhile (fun c => !pyIsSpace c)
        if run.isEmpty then none else some ("http://".toList ++ run)
      | none => none

def servingGroup (line : String) : Option String :=
  (scanFor servingGroupHere line.toList).map String.mk

/-- Capture group of "Documentation built in ([\d.]+) seconds". -/
def timeGroup (line : String) : Option String :=
  (scanFor builtHere line.toList).map String.mk

/-- Position matcher for "Building documentation to directory: (.+)"; the
dot does not match newlines and the group must be non-empty. -/
def dirHere (l : List Char) : Option (List Char) :=
  match dropPre "Building documentation to directory: ".toList l with
  | none => none
  | some r =>
    let g := r.takeWhile (fun c => c ≠ '\n')
    if g.isEmpty then none else some g

def dirGroup (line : String) : Option String :=
  (scanFor dirHere line.toList).map String.mk

/-- One line of the extract_build_info loop body. -/
def buildInfoStep (info : BuildInfo) (line : String) : BuildInfo :=
  let info1 :=
    match servingGroup line with
    | some u => { info with server_url := some u }
    | none => info
  let info2 :=
    match timeGroup line with
    | some t => { info1 with build_time := some t }
    | none => info1
  match dirGroup line with
  | some d => { info2 with build_dir := some (pyStrip d) }
  | none => info2

/-- parsing.extract_build_info: extract server URL, build directory and
timing from mkdocs output. -/
def extract_build_info (lines : List String) : BuildInfo :=
  lines.foldl buildInfoStep {}

/-- Last value produced by a per-line extractor over a line list (used to
specify the last-write-wins behaviour of extract_build_info). -/
def lastSome (f : String → Option String) (lines : List String) : Option String :=
  lines.foldl (fun acc l => match f l with | some v => some v | none => acc) none

/-- The \S+\.md capture inside a maximal non-blank run: the longest prefix of
the run, of length at least four, ending in ".md" (greedy backtracking). -/
def mdGroup (run : List Char) : Option (List Char) :=
  ((List.range (run.length + 1)).filterMap fun n =>
    let p := run.take n
    if 4 ≤ n && endsMd p then some p else none).getLast?

/-- Position matcher for "DEBUG\s*-\s*Reading:\s*(\S+\.md)". -/
def readingHere (l : List Char) : Option (List Char) :=
  match dropPre "DEBUG".toList l with
  | none => none
  | some r1 =>
    match r1.dropWhile pyIsSpace with
    | '-' :: r2 =>
      match dropPre "Reading:".toList (r2.dropWhile pyIsSpace) with
      | none => none
      | some r3 =>
        let run := (r3.dropWhile pyIsSpace).takeWhile (fun c => !pyIsSpace c)
        if run.isEmpty then none else mdGroup run
    | _ => none

/-- One \[([^\]]+)\]\(/([^)]+)\) attempt starting at an opening bracket. -/
def tryBracket : List Char → Option (List Char)
  | '[' :: rest =>
    let g1 := rest.takeWhile (fun c => c ≠ ']')
    let after := rest.drop g1.length
    if g1.isEmpty then none
    else
      match after with
      | ']' :: '(' :: '/' :: r2 =>
        let g2 := r2.takeWhile (fun c => c ≠ ')')
        let a2 := r2.drop g2.length
        if g2.isEmpty then none
        else
          match a2 with
          | ')' :: _ => some g2
          | _ => none
      | _ => none
  | _ => none

/-- Candidate suffixes starting at an opening bracket reachable by the
greedy dot-star (the dot does not cross a newline), left to right. -/
def bracketCands : List Char → List (List Char)
  | [] => []
  | c :: rest =>
    if c = '\n' then []
    else (if c = '[' then [c :: rest] else []) ++ bracketCands rest

def firstSome {α β : Type} (f : α → Option β) : List α → Option β
  | [] => none
  | a :: rest =>
    match f a with
    | some v => some v
    | none => firstSome f rest

/-- Position matcher for "Generated breadcrumb string:.*\[([^\]]+)\]\(/([^)]+)\)";
the greedy dot-star means the rightmost viable bracket wins. -/
def breadcrumbHere (l : List Char) : Option (List Char) :=
  match dropPre "Generated breadcrumb string:".toList l with
  | none => none
  | some t => firstSome tryBracket (bracketCands t).reverse

/-- Position matcher for "Doc file '([^']+\.md)'". -/
def docFileHere (l : List Char) : Option (List Char) :=
  match dropPre ("Doc file ".toList ++ [quoteChar]) l with
  | none => none
  | some r =>
    let run := r.takeWhile (fun c => c ≠ quoteChar)
    let after := r.drop run.length
    if 4 ≤ run.length && endsMd run && !after.isEmpty then some run else none

/-- One backward-attribution line: the three hint patterns in the priority
order of the source. -/
def hintOfLine (line : String) : Option String :=
  match scanFor readingHere line.toList with
  | some g => some (String.mk g)
  | none =>
    match scanFor breadcrumbHere line.toList with
    | some g => some (String.mk (g ++ ".md".toList))
    | none => (scanFor docFileHere line.toList).map String.mk

/-- Backward file attribution of parse_markdown_exec_issue: scan indices
start-1 down to max(0, start-49). -/
def lookBack (lines : List String) (start : Nat) : Option String :=
  firstSome (fun j => hintOfLine (lines.getD j ""))
    (((List.range start).drop (start - 49)).reverse)

/-- Anchored match for the stop conditions of the forward scan:
^(INFO|DEBUG|WARNING|ERROR)\s*- or ^\d{4}-\d{2}-\d{2} or ^\[stderr\],
applied to the stripped line. -/
def stopLineS (s : List Char) : Bool :=
  sevDashTok tok4 s || dateStartL s || lpre "[stderr]".toList s

/-- String-level form of the stop test. -/
def stopLine (s : String) : Bool := stopLineS s.toList

/-- Position matcher for the traceback frame pattern
File "<code block: session ([^;]+); n(\d+)>", line (\d+) returning the
session (group 1) and line (group 3) captures. -/
def frameHere (l : List Char) : Option (String × String) :=
  match dropPre "File \"<code block: session ".toList l with
  | none => none
  | some r =>
    let g1 := r.takeWhile (fun c => c ≠ ';')
    let r1 := r.drop g1.length
    if g1.isEmpty then none
    else
      match dropPre "; n".toList r1 with
      | none => none
      | some r2 =>
        let g2 := r2.takeWhile Char.isDigit
        let r3 := r2.drop g2.length
        if g2.isEmpty then none
        else
          match dropPre ">\", line ".toList r3 with
          | none => none
          | some r4 =>
            let g3 := r4.takeWhile Char.isDigit
            if g3.isEmpty then none else some (String.mk g1, String.mk g3)

/-- String-level search for the traceback frame pattern. -/
def frameSearch (s : String) : Option (String × String) := scanFor frameHere s.toList

/-- Result of the forward section-capture loop of parse_markdown_exec_issue. -/
structure ScanRes where
  code_lines : List String
  output_lines : List String
  session_info : Option String
  line_number : Option String
  endIdx : Nat
deriving DecidableEq

/-- The forward section-capture loop of parse_markdown_exec_issue, one step
per remaining line, tracking the running index i. -/
def scanBlock : List String → Nat → Bool → Bool → List String → List String →
    Option String → Option String → ScanRes
  | [], i, _, _, cs, os, si, ln => ⟨cs, os, si, ln, i⟩
  | line :: rest, i, in_code, in_output, cs, os, si, ln =>
    let stripped := pyStrip line
    if stripped = "Code block is:" then
      scanBlock rest (i + 1) true false cs os si ln
    else if stripped = "Output is:" then
      scanBlock rest (i + 1) false true cs os si ln
    else if stopLine stripped then
      ⟨cs, os, si, ln, i⟩
    else if in_code ∧ stripped ≠ "" then
      scanBlock rest (i + 1) in_code in_output (cs ++ [pyRstrip line]) os si ln
    else if in_output ∧ stripped ≠ "" then
      match frameSearch stripped with
      | some (s, n) =>
        scanBlock rest (i + 1) in_code in_output cs (os ++ [pyRstrip line]) (some s) (some n)
      | none =>
        scanBlock rest (i + 1) in_code in_output cs (os ++ [pyRstrip line]) si ln
    else
      scanBlock rest (i + 1) in_code in_output cs os si ln

/-- The error-message test of the reverse scan: the stripped line is
non-empty, contains "Error:" or "Exception:", and does not start with
"File ". -/
def errLine (l : String) : Bool :=
  let s := pyStrip l
  s ≠ "" && (substr "Error:" s || substr "Exception:" s) && !lpre "File ".toList s.toList

/-- Reverse scan over the captured output lines for the error message. -/
def findErrMsgRev : List String → String
  | [] => "Code execution failed"
  | l :: rest => if errLine l then pyStrip l else findErrMsgRev rest

def findErrMsg (os : List String) : String := findErrMsgRev os.reverse

/-- Python "sep".join. -/
def joinSep (sep : String) : List String → String
  | [] => ""
  | [s] => s
  | s :: rest => s ++ sep ++ joinSep sep rest

def joinNL : List String → String := joinSep "\n"

/-- The location string built from the file attribution and the traceback
captures; the separator is the literal byte sequence of the source. -/
def locationStr (file_path session_info line_number : Option String) : Option String :=
  let parts :=
    (match file_path with | some f => [f] | none => []) ++
    (match session_info with
     | some s => ["session " ++ String.mk [quoteChar] ++ s ++ String.mk [quoteChar]]
     | none => []) ++
    (match line_number with | some n => ["line " ++ n] | none => [])
  if parts.isEmpty then none else some (joinSep " â†’ " parts)

/-- The "\n".join(lines) if lines else None idiom. -/
def optJoin (xs : List String) : Option String :=
  if xs.isEmpty then none else some (joinNL xs)

/-- parsing.parse_markdown_exec_issue: parse a markdown_exec warning/error
block, returning (issue, end_index). -/
def parse_markdown_exec_issue (lines : List String) (start : Nat) (level : Level) :
    Option Issue × Nat :=
  let file_path := lookBack lines start
  let r := scanBlock (lines.drop (start + 1)) (start + 1) false false [] [] none none
  let error_msg := findErrMsg r.output_lines
  (some
    { level := level
      source := "markdown_exec"
      message := error_msg
      file := locationStr file_path r.session_info r.line_number
      code := optJoin r.code_lines
      output := optJoin r.output_lines },
   r.endIdx)

/-- The re.sub(r"^\[stderr\]\s*", "", s) step. -/
def subStderr (l : List Char) : List Char :=
  match dropPre "[stderr]".toList l with
  | some r => r.dropWhile pyIsSpace
  | none => l

/-- Lazy scan for the first dash reachable without crossing a newline,
returning what follows it. -/
def afterFirstDash : List Char → Option (List Char)
  | [] => none
  | c :: rest =>
    if c = '-' then some rest
    else if c = '\n' then none
    else afterFirstDash rest

/-- The re.sub(r"^\d{4}-\d{2}-\d{2}.*?-\s*", "", s) step. -/
def subDate (l : List Char) : List Char :=
  if dateStartL l then
    match afterFirstDash (l.drop 10) with
    | some r => r.dropWhile pyIsSpace
    | none => l
  else l

/-- The \s*-?\s* tail of the severity-token substitution. -/
def subSevTail (r : List Char) : List Char :=
  let r1 := r.dropWhile pyIsSpace
  let r2 :=
    match r1 with
    | c :: rest => if c = '-' then rest else r1
    | [] => r1
  r2.dropWhile pyIsSpace

/-- The re.sub(r"^(WARNING|ERROR)\s*-?\s*", "", s) step. -/
def subSevTok (l : List Char) : List Char :=
  match dropPre "WARNING".toList l with
  | some r => subSevTail r
  | none =>
    match dropPre "ERROR".toList l with
    | some r => subSevTail r
    | none => l

/-- Position matcher for a quoted markdown path: q([^q]+\.md)q for a quote
character q. -/
def quotedHere (q : Char) : List Char → Option (List Char)
  | [] => none
  | c :: rest =>
    if c = q then
      let run := rest.takeWhile (fun x => x ≠ q)
      let after := rest.drop run.length
      if 4 ≤ run.length && endsMd run && !after.isEmpty then some run else none
    else none

/-- File-path extraction from a regular warning/error message: single-quoted
first, then double-quoted. -/
def extractFile (message : List Char) : Option String :=
  match scanFor (quotedHere quoteChar) message with
  | some f => some (String.mk f)
  | none => (scanFor (quotedHere '"') message).map String.mk

/-- The regular (single-line) warning/error extraction of
parse_mkdocs_output: traceback-looking lines are skipped and an issue is
produced only when the cleaned message strips to something non-empty. -/
def regularIssue (level : Level) (line : String) : Option Issue :=
  let stripped := pyStrip line
  if lpre "raise ".toList stripped.toList || lpre "File ".toList stripped.toList then none
  else
    let m1 := subStderr line.toList
    let m2 := subDate m1
    let m3 := subSevTok m2
    if stripL m3 = [] then none
    else
      some
        { level := level
          source := "mkdocs"
          message := String.mk (stripL m3)
          file := extractFile m3 }

/-- Lower bound on the index returned by the forward scan. -/
theorem scanBlock_endIdx_ge (ls : List String) (i : Nat) (ic io : Bool)
    (cs os : List String) (si ln : Option String) :
    i ≤ (scanBlock ls i ic io cs os si ln).endIdx := by
  induction ls generalizing i ic io cs os si ln with
  | nil => simp [scanBlock]
  | cons l rest ih =>
    simp only [scanBlock]
    split
    · exact Nat.le_of_succ_le (ih (i + 1) true false cs os si ln)
    · split
      · exact Nat.le_of_succ_le (ih (i + 1) false true cs os si ln)
      · split
        · simp
        · split
          · exact Nat.le_of_succ_le (ih (i + 1) ic io (cs ++ [pyRstrip l]) os si ln)
          · split
            · split
              · exact Nat.le_of_succ_le (ih (i + 1) ic io cs (os ++ [pyRstrip l]) _ _)
              · exact Nat.le_of_succ_le (ih (i + 1) ic io cs (os ++ [pyRstrip l]) si ln)
            · exact Nat.le_of_succ_le (ih (i + 1) ic io cs os si ln)

/-- The end index of parse_markdown_exec_issue is strictly past the start
index. -/
theorem parse_mdexec_end_gt (lines : List String) (start : Nat) (level : Level) :
    start < (parse_markdown_exec_issue lines start level).2 := by
  have h := scanBlock_endIdx_ge (lines.drop (start + 1)) (start + 1) false false [] [] none none
  simp only [parse_markdown_exec_issue]
  omega

/-- The main loop of parse_mkdocs_output; i is the loop index and
skip_until the (vestigial) skip bound of the source. -/
def parseLoop (lines : List String) (i skip_until : Nat) : List Issue :=
  if hlt : i < lines.length then
    if i < skip_until then parseLoop lines (i + 1) skip_until
    else
      let line := lines.getD i ""
      if substr "WARNING" line || substr "ERROR" line then
        let level := if substr "ERROR" line then Level.ERROR else Level.WARNING
        if substr "markdown_exec" line then
          match (parse_markdown_exec_issue lines i level).1 with
          | some issue =>
            issue :: parseLoop lines (parse_markdown_exec_issue lines i level).2
              (parse_markdown_exec_issue lines i level).2
          | none =>
            match regularIssue level line with
            | some issue => issue :: parseLoop lines (i + 1) skip_until
            | none => parseLoop lines (i + 1) skip_until
        else
          match regularIssue level line with
          | some issue => issue :: parseLoop lines (i + 1) skip_until
          | none => parseLoop lines (i + 1) skip_until
      else parseLoop lines (i + 1) skip_until
  else []
termination_by lines.length - i
decreasing_by
  all_goals simp_wf
  all_goals try omega
  · have h := parse_mdexec_end_gt lines i
      (if substr "ERROR" (lines[i]?.getD "") = true then Level.ERROR else Level.WARNING)
    omega

/-- parsing.parse_mkdocs_output: parse mkdocs output and extract
warnings/errors. -/
def parse_mkdocs_output (lines : List String) : List Issue :=
  parseLoop lines 0 0

/-- The cycle-scoped duplicate identity key of an issue. -/
def identity_key (i : Issue) : Level × String × String :=
  (i.level, i.source, i.message)

/-- Modelled from the spec: the deduplicator (the module defining
deduplicate_issues and the streaming processor that fills
StreamingState.seen_issues is absent from the sources; only the
StreamingState declaration is present).  Per the spec it collapses repeated
findings with an identical (severity, source, message) identity key within
one build cycle, preserving first-seen order. -/
def dedupGo : List Issue → List (Level × String × String) → List Issue
  | [], _ => []
  | i :: rest, seen =>
    if identity_key i ∈ seen then dedupGo rest seen
    else i :: dedupGo rest (identity_key i :: seen)

def deduplicate_issues (issues : List Issue) : List Issue :=
  dedupGo issues []

end MkdocsFilter

namespace McpServer

/-- Modelled from the spec: the Issue record of the docs_output_filter types
module (that module is absent from the sources; the mcp_server module uses
it): severity, source tag, message, optional file path, optional line
number, optional warning code, optional code snippet and optional captured
output (spec section 3). -/
structure Issue where
  level : MkdocsFilter.Level
  source : String
  message : String
  file : Option String := none
  line_number : Option Nat := none
  warning_code : Option String := none
  code : Option String := none
  output : Option String := none
deriving DecidableEq

/-- Modelled from the spec: the InfoMessage record with its closed category
enumeration (broken link, page absent from navigation, missing history, a
dependency's deprecation notice). -/
inductive InfoCategory
  | broken_link
  | not_in_nav
  | missing_history
  | deprecated_dependency
deriving DecidableEq

/-- Modelled from the spec: an InfoMessage has a category, an origin file or
package name, an optional link target and an optional suggested
replacement. -/
structure InfoMessage where
  category : InfoCategory
  origin : String
  link_target : Option String := none
  replacement : Option String := none
deriving DecidableEq

/-- Modelled from the spec: the BuildInfo record used by the server (server
URL, output directory, elapsed build time, optional reported warning
count). -/
structure DocsBuildInfo where
  server_url : Option String := none
  build_dir : Option String := none
  build_time : Option String := none
  reported_warning_count : Option Nat := none
deriving DecidableEq

/-- Modelled from the spec: the persisted state snapshot (a monotonically
increasing timestamp, the current cycle's issues, info messages, build
info, the raw line buffer) together with the build-status fields the server
reads from it.  Timestamps are modelled as integers; only their ordering
matters. -/
structure StateSnapshot where
  timestamp : Int
  build_status : String
  build_started_at : Option Int := none
  issues : List Issue := []
  info_messages : List InfoMessage := []
  build_info : DocsBuildInfo := {}
  raw_output : List String := []
deriving DecidableEq

/-- The DocsFilterServer fields touched by _refresh_from_state_file and the
issue-ID cache; the _issue_ids dict is an association list. -/
structure ServerState where
  watch_mode : Bool
  issues : List Issue := []
  info_messages : List InfoMessage := []
  build_info : DocsBuildInfo := {}
  raw_output : List String := []
  issue_ids : List (String × String) := []
  last_state_timestamp : Int := 0
  build_status : String := "complete"
  build_started_at : Option Int := none
deriving DecidableEq

/-- mcp_server._refresh_from_state_file.  The read_state_file call (file
system input, its module absent from the sources) is modelled as the
optional snapshot argument; the source assigns the build-status fields
before the staleness check and only then compares timestamps. -/
def refreshFromStateFile (s : ServerState) (state? : Option StateSnapshot) :
    Bool × ServerState :=
  if !s.watch_mode then (false, s)
  else
    match state? with
    | none => (false, s)
    | some state =>
      let s1 := { s with build_status := state.build_status,
                         build_started_at := state.build_started_at }
      if state.timestamp ≤ s1.last_state_timestamp then (false, s1)
      else
        (true,
         { s1 with last_state_timestamp := state.timestamp
                   issues := state.issues
                   info_messages := state.info_messages
                   build_info := state.build_info
                   raw_output := state.raw_output })

/-- Truncation to a 32-bit word. -/
def w32 (n : Nat) : Nat := n % 4294967296

/-- 32-bit right rotation. -/
def rotr (k n : Nat) : Nat := w32 ((n >>> k) ||| (n <<< (32 - k)))

def bsig0 (x : Nat) : Nat := rotr 2 x ^^^ rotr 13 x ^^^ rotr 22 x

def bsig1 (x : Nat) : Nat := rotr 6 x ^^^ rotr 11 x ^^^ rotr 25 x

def ssig0 (x : Nat) : Nat := rotr 7 x ^^^ rotr 18 x ^^^ (x >>> 3)

def ssig1 (x : Nat) : Nat := rotr 17 x ^^^ rotr 19 x ^^^ (x >>> 10)

def chF (x y z : Nat) : Nat := (x &&& y) ^^^ ((x ^^^ 4294967295) &&& z)

def majF (x y z : Nat) : Nat := (x &&& y) ^^^ (x &&& z) ^^^ (y &&& z)

/-- SHA-256 round constants. -/
def K256 : List Nat :=
  [1116352408, 1899447441, 3049323471, 3921009573,
   961987163, 1508970993, 2453635748, 2870763221,
   3624381080, 310598401, 607225278, 1426881987,
   1925078388, 2162078206, 2614888103, 3248222580,
   3835390401, 4022224774, 264347078, 604807628,
   770255983, 1249150122, 1555081692, 1996064986,
   2554220882, 2821834349, 2952996808, 3210313671,
   3336571891, 3584528711, 113926993, 338241895,
   666307205, 773529912, 1294757372, 1396182291,
   1695183700, 1986661051, 2177026350, 2456956037,
   2730485921, 2820302411, 3259730800, 3345764771,
   3516065817, 3600352804, 4094571909, 275423344,
   430227734, 506948616, 659060556, 883997877,
   958139571, 1322822218, 1537002063, 1747873779,
   1955562222, 2024104815, 2227730452, 2361852424,
   2428436474, 2756734187, 3204031479, 3329325298]

/-- SHA-256 initial hash state. -/
def H256 : List Nat :=
  [1779033703, 3144134277, 1013904242, 2773480762,
   1359893119, 2600822924, 528734635, 1541459225]

/-- UTF-8 encoding of one character (str.encode). -/
def utf8Char (c : Char) : List Nat :=
  let n := c.toNat
  if n < 128 then [n]
  else if n < 2048 then [192 ||| (n >>> 6), 128 ||| (n &&& 63)]
  else if n < 65536 then
    [224 ||| (n >>> 12), 128 ||| ((n >>> 6) &&& 63), 128 ||| (n &&& 63)]
  else
    [240 ||| (n >>> 18), 128 ||| ((n >>> 12) &&& 63),
     128 ||| ((n >>> 6) &&& 63), 128 ||| (n &&& 63)]

def utf8Bytes (s : String) : List Nat :=
  s.toList.foldr (fun c acc => utf8Char c ++ acc) []

/-- Big-endian 8-byte encoding of the bit length. -/
def be64 (n : Nat) : List Nat :=
  [w32 (n >>> 56) % 256, (n >>> 48) % 256, (n >>> 40) % 256, (n >>> 32) % 256,
   (n >>> 24) % 256, (n >>> 16) % 256, (n >>> 8) % 256, n % 256]

/-- SHA-256 message padding. -/
def padMsg (m : List Nat) : List Nat :=
  m ++ [128] ++ List.replicate ((119 - m.length % 64) % 64) 0 ++ be64 (8 * m.length)

/-- Split into 64-byte chunks (fuel-bounded structural recursion). -/
def chunksN : Nat → List Nat → List (List Nat)
  | 0, _ => []
  | n + 1, l => if l.isEmpty then [] else l.take 64 :: chunksN n (l.drop 64)

def chunks64 (l : List Nat) : List (List Nat) := chunksN l.length l

/-- Big-endian 32-bit words of a chunk. -/
def wordsOf : List Nat → List Nat
  | b0 :: b1 :: b2 :: b3 :: rest =>
    (b0 * 16777216 + b1 * 65536 + b2 * 256 + b3) :: wordsOf rest
  | _ => []

/-- Extend the 16 chunk words to the 64-entry message schedule. -/
def msgSchedule (ws : List Nat) : List Nat :=
  (List.range 48).foldl
    (fun ws _ =>
      let t := ws.length
      ws ++ [w32 (ssig1 (ws.getD (t - 2) 0) + ws.getD (t - 7) 0 +
        ssig0 (ws.getD (t - 15) 0) + ws.getD (t - 16) 0)]) ws

/-- One SHA-256 compression over a 64-entry schedule. -/
def compress (h : List Nat) (ws : List Nat) : List Nat :=
  let out :=
    (List.range 64).foldl
      (fun st i =>
        match st with
        | [a, b, c, d, e, f, g, hh] =>
          let t1 := w32 (hh + bsig1 e + chF e f g + K256.getD i 0 + ws.getD i 0)
          let t2 := w32 (bsig0 a + majF a b c)
          [w32 (t1 + t2), a, b, c, w32 (d + t1), e, f, g]
        | st => st) h
  List.zipWith (fun x y => w32 (x + y)) h out

def wordBytes (w : Nat) : List Nat :=
  [w / 16777216 % 256, w / 65536 % 256, w / 256 % 256, w % 256]

/-- SHA-256 digest (32 bytes) of a byte list (hashlib.sha256(..).digest()). -/
def sha256 (msg : List Nat) : List Nat :=
  let hs := (chunks64 (padMsg msg)).foldl (fun h chunk => compress h (msgSchedule (wordsOf chunk))) H256
  hs.foldr (fun w acc => wordBytes w ++ acc) []

def hexDigit (n : Nat) : Char := "0123456789abcdef".toList.getD n '0'

/-- Lowercase hex string of a byte list (bytes.hex()). -/
def hexStr (bs : List Nat) : String :=
  String.mk (bs.foldr (fun b acc => hexDigit (b / 16) :: hexDigit (b % 16) :: acc) [])

/-- The content string hashed by _get_issue_id; the file segment is appended
only when the file field is truthy (present and non-empty). -/
def issueContent (issue : Issue) : String :=
  let c := issue.level.value ++ ":" ++ issue.source ++ ":" ++ issue.message
  match issue.file with
  | some f => if f ≠ "" then c ++ ":" ++ f else c
  | none => c

/-- hashlib.sha256(content.encode()).digest()[:4].hex() . -/
def shortHash (content : String) : String :=
  hexStr ((sha256 (utf8Bytes content)).take 4)

def lookupIds : List (String × String) → String → Option String
  | [], _ => none
  | (k, v) :: rest, key => if k = key then some v else lookupIds rest key

/-- mcp_server._get_issue_id: a stable ID for an issue, memoised in the
_issue_ids dict (returned updated). -/
def getIssueId (ids : List (String × String)) (issue : Issue) : String × List (String × String) :=
  let content := issueContent issue
  match lookupIds ids content with
  | some h => ("issue-" ++ h, ids)
  | none => ("issue-" ++ shortHash content, ids ++ [(content, shortHash content)])

/-- Consistency of the ID cache: every stored value is the short hash of its
key (every reachable cache state satisfies this). -/
def idsConsistent (ids : List (String × String)) : Prop :=
  ∀ p ∈ ids, p.2 = shortHash p.1

end McpServer

namespace MkdocsFilter

theorem lpre_self_append (p l : List Char) : lpre p (p ++ l) = true := by
  induction p with
  | nil => simp [lpre]
  | cons c p ih => simp [lpre, ih]

theorem dropPre_self_append (p l : List Char) : dropPre p (p ++ l) = some l := by
  induction p with
  | nil => simp [dropPre]
  | cons c p ih => simp [dropPre, ih]

theorem takeWhile_run (p : Char → Bool) (ds : List Char) (y : Char) (ys : List Char)
    (hds : ∀ c ∈ ds, p c = true) (hy : p y = false) :
    (ds ++ y :: ys).takeWhile p = ds := by
  induction ds with
  | nil => simp [List.takeWhile, hy]
  | cons c ds ih =>
    have hc : p c = true := hds c (by simp)
    have ih' := ih (fun x hx => hds x (by simp [hx]))
    simp [List.takeWhile, hc, ih']

theorem scanFor_isSome_of_suffix {α : Type} (p : List Char → Option α) (a s : List Char)
    (v : α) (h : p s = some v) : (scanFor p (a ++ s)).isSome = true := by
  induction a with
  | nil =>
    cases s with
    | nil => simp [scanFor, h]
    | cons c rest => simp only [List.nil_append, scanFor, h, Option.isSome_some]
  | cons c a ih =>
    simp only [List.cons_append, scanFor]
    cases hp : p (c :: (a ++ s)) with
    | some v' => simp
    | none => simpa using ih

/-- The first branch of detect_chunk_boundary: any line on which the
build-complete pattern matches classifies as BUILD_COMPLETE, regardless of
what else the line contains. -/
theorem detect_of_searchBuilt (line : String) (prev : Option String)
    (h : searchBuilt line.toList = true) :
    detect_chunk_boundary line prev = ChunkBoundary.BUILD_COMPLETE := by
  simp only [String.toList] at h
  simp [detect_chunk_boundary, h]

/-- The build-complete pattern matches any string that embeds the literal
"Documentation built in ", a non-empty run of digits and dots, and the
literal " seconds". -/
theorem builtHere_embed (ds b : List Char) (hne : ds ≠ [])
    (hds : ∀ c ∈ ds, isDigitDot c = true) :
    builtHere ("Documentation built in ".toList ++ (ds ++ (' ' :: ("seconds".toList ++ b)))) =
      some ds := by
  simp only [builtHere, dropPre_self_append]
  rw [takeWhile_run isDigitDot ds ' ' ("seconds".toList ++ b) hds (by decide)]
  have hdrop : (ds ++ ' ' :: ("seconds".toList ++ b)).drop ds.length =
      ' ' :: ("seconds".toList ++ b) := List.drop_left ds _
  rw [hdrop]
  have h8 : lpre " seconds".toList (' ' :: ("seconds".toList ++ b)) = true := by
    rw [show (' ' :: ("seconds".toList ++ b)) = " seconds".toList ++ b from rfl]
    exact lpre_self_append _ _
  rw [h8]
  simp [hne]

theorem searchBuilt_embed (a ds b : List Char) (hne : ds ≠ [])
    (hds : ∀ c ∈ ds, isDigitDot c = true) :
    searchBuilt (a ++ ("Documentation built in ".toList ++
      (ds ++ (' ' :: ("seconds".toList ++ b))))) = true := by
  exact scanFor_isSome_of_suffix builtHere a _ ds (builtHere_embed ds b hne hds)

end MkdocsFilter

open MkdocsFilter McpServer

/-- C4: boundary classification is checked in fixed priority order with
first match winning: every line on which the build-complete pattern matches
classifies as BUILD_COMPLETE, whatever else (rebuild-trigger phrases,
server-started patterns) the line contains and whatever the previous line
was. -/
theorem claim_c4_boundary_priority (line : String) (prev : Option String)
    (h : searchBuilt line.toList = true) :
    detect_chunk_boundary line prev = ChunkBoundary.BUILD_COMPLETE :=
  detect_of_searchBuilt line prev h

/-- C4 witness: a crafted line containing both the build-complete phrasing
and the rebuild-trigger phrase classifies as BUILD_COMPLETE. -/
theorem claim_c4_boundary_priority_witness :
    searchBuilt "INFO -  Documentation built in 1.00 seconds after Detected file changes and Serving on http://x".toList = true ∧
    detect_chunk_boundary
      "INFO -  Documentation built in 1.00 seconds after Detected file changes and Serving on http://x"
      (some "") = ChunkBoundary.BUILD_COMPLETE :=
  ⟨by decide, claim_c4_boundary_priority _ _ (by decide)⟩

/-- C8: the classifier is total: detect_chunk_boundary always returns one of
the five ChunkBoundary values, and parse_mkdocs_output and
extract_build_info always return normally (a list of issues, a BuildInfo);
all three are total functions of their inputs in this embedding. -/
theorem claim_c8_totality (line : String) (prev : Option String) (lines : List String) :
    (detect_chunk_boundary line prev = ChunkBoundary.BUILD_COMPLETE ∨
     detect_chunk_boundary line prev = ChunkBoundary.SERVER_STARTED ∨
     detect_chunk_boundary line prev = ChunkBoundary.REBUILD_STARTED ∨
     detect_chunk_boundary line prev = ChunkBoundary.ERROR_BLOCK_END ∨
     detect_chunk_boundary line prev = ChunkBoundary.NONE) ∧
    (∃ issues : List MkdocsFilter.Issue, parse_mkdocs_output lines = issues) ∧
    (∃ info : MkdocsFilter.BuildInfo, extract_build_info lines = info) := by
  refine ⟨?_, ⟨_, rfl⟩, ⟨_, rfl⟩⟩
  cases h : detect_chunk_boundary line prev <;> tauto

/-- C9 counterexample: the build-complete pattern of the source is
case-sensitive, so the lower-case line of the claim does not classify as
BUILD_COMPLETE (it classifies as NONE). -/
theorem claim_c9_counterexample :
    detect_chunk_boundary "documentation built in 1.00 seconds" none = ChunkBoundary.NONE ∧
    ¬ detect_chunk_boundary "documentation built in 1.00 seconds" none =
        ChunkBoundary.BUILD_COMPLETE := by
  constructor
  · decide
  · decide

/-- C9 (amended): the build-complete pattern is number-format tolerant but
case-sensitive: every line embedding the capitalised literal
"Documentation built in ", any non-empty run of digits and dots, and
" seconds" classifies as BUILD_COMPLETE; the lower-case variant does not. -/
theorem claim_c9_build_complete_pattern (a ds b : List Char) (prev : Option String)
    (hne : ds ≠ []) (hds : ∀ c ∈ ds, isDigitDot c = true) :
    detect_chunk_boundary
      (String.mk (a ++ ("Documentation built in ".toList ++
        (ds ++ (' ' :: ("seconds".toList ++ b)))))) prev = ChunkBoundary.BUILD_COMPLETE := by
  apply detect_of_searchBuilt
  exact searchBuilt_embed a ds b hne hds

/-- C9 witness: a capitalised line with a two-decimal build time classifies
as BUILD_COMPLETE via the amended statement. -/
theorem claim_c9_build_complete_pattern_witness :
    detect_chunk_boundary
      (String.mk ("INFO -  ".toList ++ ("Documentation built in ".toList ++
        ("78.99".toList ++ (' ' :: ("seconds".toList ++ [])))))) none =
      ChunkBoundary.BUILD_COMPLETE :=
  claim_c9_build_complete_pattern "INFO -  ".toList "78.99".toList [] none
    (by decide) (by decide)

namespace MkdocsFilter

/-- One step of the last-write-wins fold used to specify
extract_build_info. -/
def lastStep (f : String → Option String) (acc : Option String) (l : String) : Option String :=
  match f l with
  | some v => some v
  | none => acc

theorem lastSome_eq_foldl (f : String → Option String) (lines : List String) :
    lastSome f lines = lines.foldl (lastStep f) none := rfl

theorem buildInfoStep_url (info : BuildInfo) (line : String) :
    (buildInfoStep info line).server_url = lastStep servingGroup info.server_url line := by
  cases h1 : servingGroup line <;> cases h2 : timeGroup line <;> cases h3 : dirGroup line <;>
    simp [buildInfoStep, lastStep, h1, h2, h3]

theorem buildInfoStep_time (info : BuildInfo) (line : String) :
    (buildInfoStep info line).build_time = lastStep timeGroup info.build_time line := by
  cases h1 : servingGroup line <;> cases h2 : timeGroup line <;> cases h3 : dirGroup line <;>
    simp [buildInfoStep, lastStep, h1, h2, h3]

theorem buildInfoStep_dir (info : BuildInfo) (line : String) :
    (buildInfoStep info line).build_dir =
      lastStep (fun l => (dirGroup l).map pyStrip) info.build_dir line := by
  cases h1 : servingGroup line <;> cases h2 : timeGroup line <;> cases h3 : dirGroup line <;>
    simp [buildInfoStep, lastStep, h1, h2, h3]

theorem foldl_proj (proj : BuildInfo → Option String) (f : String → Option String)
    (hstep : ∀ info l, proj (buildInfoStep info l) = lastStep f (proj info) l)
    (lines : List String) : ∀ info : BuildInfo,
    proj (lines.foldl buildInfoStep info) = lines.foldl (lastStep f) (proj info) := by
  induction lines with
  | nil => intro info; simp
  | cons l rest ih =>
    intro info
    simp only [List.foldl]
    rw [ih, hstep]

end MkdocsFilter

/-- C5: extract_build_info is last-write-wins: each BuildInfo field equals
the value extracted from the last matching line (none when no line
matches); in particular with two build-time lines the second wins. -/
theorem claim_c5_last_write_wins :
    (∀ lines : List String,
      extract_build_info lines =
        { server_url := lastSome servingGroup lines
          build_dir := lastSome (fun l => (dirGroup l).map pyStrip) lines
          build_time := lastSome timeGroup lines }) ∧
    extract_build_info
      ["INFO -  Documentation built in 1.00 seconds",
       "INFO -  Documentation built in 2.50 seconds"] =
      { server_url := none, build_dir := none, build_time := some "2.50" } := by
  constructor
  · intro lines
    have hu := foldl_proj BuildInfo.server_url servingGroup buildInfoStep_url lines {}
    have ht := foldl_proj BuildInfo.build_time timeGroup buildInfoStep_time lines {}
    have hd := foldl_proj BuildInfo.build_dir (fun l => (dirGroup l).map pyStrip)
      buildInfoStep_dir lines {}
    rcases hext : extract_build_info lines with ⟨u, d, t⟩
    have hL : lines.foldl buildInfoStep {} = (⟨u, d, t⟩ : BuildInfo) := hext
    rw [hL] at hu ht hd
    simp only at hu ht hd
    rw [lastSome_eq_foldl, lastSome_eq_foldl, lastSome_eq_foldl]
    simp only [BuildInfo.mk.injEq]
    exact ⟨hu, hd, ht⟩
  · decide

namespace MkdocsFilter

theorem dedup_pair_eq (i1 i2 : Issue) (h : identity_key i1 = identity_key i2) :
    deduplicate_issues [i1, i2] = [i1] := by
  simp [deduplicate_issues, dedupGo, h.symm]

theorem dedup_pair_ne (i1 i2 : Issue) (h : ¬ identity_key i1 = identity_key i2) :
    deduplicate_issues [i1, i2] = [i1, i2] := by
  have h' : ¬ identity_key i2 = identity_key i1 := fun he => h he.symm
  simp [deduplicate_issues, dedupGo, h']

end MkdocsFilter

/-- C1: two issues are duplicates within one build cycle iff their
(severity, source, message) triples are identical: the identity key ignores
file, code and output, a pair with an equal key deduplicates to the first
issue, and a pair with differing keys stays distinct. -/
theorem claim_c1_dedup_identity_key (i1 i2 : MkdocsFilter.Issue) :
    (identity_key i1 = identity_key i2 ↔
      i1.level = i2.level ∧ i1.source = i2.source ∧ i1.message = i2.message) ∧
    (identity_key i1 = identity_key i2 → deduplicate_issues [i1, i2] = [i1]) ∧
    (¬ identity_key i1 = identity_key i2 → deduplicate_issues [i1, i2] = [i1, i2]) := by
  refine ⟨?_, dedup_pair_eq i1 i2, dedup_pair_ne i1 i2⟩
  simp [identity_key, Prod.ext_iff]

/-- C1 witness: two issues equal up to file/code and different everywhere
else on the key collapse; issues with different messages stay distinct. -/
theorem claim_c1_dedup_identity_key_witness :
    deduplicate_issues
      [{ level := MkdocsFilter.Level.WARNING, source := "mkdocs", message := "m",
         file := some "a.md" },
       { level := MkdocsFilter.Level.WARNING, source := "mkdocs", message := "m",
         file := some "b.md", code := some "x = 1" }] =
      [{ level := MkdocsFilter.Level.WARNING, source := "mkdocs", message := "m",
         file := some "a.md" }] ∧
    deduplicate_issues
      [{ level := MkdocsFilter.Level.WARNING, source := "mkdocs", message := "m",
         file := some "a.md" },
       { level := MkdocsFilter.Level.WARNING, source := "mkdocs", message := "other" }] =
      [{ level := MkdocsFilter.Level.WARNING, source := "mkdocs", message := "m",
         file := some "a.md" },
       { level := MkdocsFilter.Level.WARNING, source := "mkdocs", message := "other" }] :=
  ⟨(claim_c1_dedup_identity_key _ _).2.1 (by decide),
   (claim_c1_dedup_identity_key _ _).2.2 (by decide)⟩

namespace McpServer

theorem lookupIds_mem (ids : List (String × String)) (k : String) (v : String)
    (h : lookupIds ids k = some v) : (k, v) ∈ ids := by
  induction ids with
  | nil => simp [lookupIds] at h
  | cons p rest ih =>
    rcases p with ⟨k', v'⟩
    by_cases hk : k' = k
    · subst hk
      simp [lookupIds] at h
      simp [h]
    · simp [lookupIds, hk] at h
      simp [ih h]

theorem getIssueId_fst (ids : List (String × String)) (i : Issue)
    (h : idsConsistent ids) :
    (getIssueId ids i).1 = "issue-" ++ shortHash (issueContent i) := by
  simp only [getIssueId]
  cases hl : lookupIds ids (issueContent i) with
  | none => simp
  | some v =>
    have hv := h _ (lookupIds_mem ids _ v hl)
    simp at hv
    simp [hv]

end McpServer

set_option maxRecDepth 20000 in
/-- C6 counterexample: the ID-generation function hashes the file field too
when it is present, so two issues with equal (severity, source, message)
but different file fields get different short hex tokens, refuting the
claim that the ID is derived from the identity key alone. -/
theorem claim_c6_counterexample :
    (getIssueId []
      { level := MkdocsFilter.Level.WARNING, source := "mkdocs", message := "boom" }).1 ≠
    (getIssueId []
      { level := MkdocsFilter.Level.WARNING, source := "mkdocs", message := "boom",
        file := some "a.md" }).1 := by
  decide

/-- C6 (amended): the external issue ID is a deterministic truncated hash of
(severity, source, message, file-when-present): any two issues agreeing on
level, source, message and file get the same "issue-<hex>" token, whatever
their line-number, warning-code, code or output fields, and whatever
(consistent) cache states the two calls see, hence regardless of how many
IDs were requested before and in what order. -/
theorem claim_c6_stable_issue_id (ids1 ids2 : List (String × String))
    (i1 i2 : McpServer.Issue)
    (hc1 : idsConsistent ids1) (hc2 : idsConsistent ids2)
    (hl : i1.level = i2.level) (hs : i1.source = i2.source)
    (hm : i1.message = i2.message) (hf : i1.file = i2.file) :
    (getIssueId ids1 i1).1 = (getIssueId ids2 i2).1 := by
  rw [getIssueId_fst ids1 i1 hc1, getIssueId_fst ids2 i2 hc2]
  have : issueContent i1 = issueContent i2 := by
    simp [issueContent, hl, hs, hm, hf]
  rw [this]

/-- C6 witness: with empty (hence consistent) caches, two issues equal on
the hashed fields but different in line number, code and output get the
same ID. -/
theorem claim_c6_stable_issue_id_witness :
    (getIssueId []
      { level := MkdocsFilter.Level.WARNING, source := "mkdocs", message := "boom",
        file := some "f.md", code := some "x = 1" }).1 =
    (getIssueId []
      { level := MkdocsFilter.Level.WARNING, source := "mkdocs", message := "boom",
        file := some "f.md", line_number := some 3, output := some "trace" }).1 :=
  claim_c6_stable_issue_id [] [] _ _
    (fun p hp => absurd hp (List.not_mem_nil p))
    (fun p hp => absurd hp (List.not_mem_nil p))
    rfl rfl rfl rfl

namespace McpServer

/-- Concrete server used by the C7 theorems: watch mode on, a last-seen
timestamp of 5, build status "complete". -/
def cexServer : ServerState :=
  { watch_mode := true, last_state_timestamp := 5, build_status := "complete",
    raw_output := ["INFO -  old raw"] }

/-- Concrete stale snapshot used by the C7 theorems: timestamp 3 (not newer
than 5), build status "building". -/
def cexSnap : StateSnapshot :=
  { timestamp := 3, build_status := "building", build_started_at := some 100,
    raw_output := ["INFO -  new raw"] }

end McpServer

/-- C7 counterexample: refreshing from a stale snapshot does return false,
but the server's exposed build status is overwritten from the snapshot
before the staleness check, so the state is not left unchanged as the claim
says. -/
theorem claim_c7_counterexample :
    (refreshFromStateFile cexServer (some cexSnap)).1 = false ∧
    (refreshFromStateFile cexServer (some cexSnap)).2.build_status ≠
      cexServer.build_status := by
  constructor
  · decide
  · decide

/-- C7 (amended): for a watch-mode server and a snapshot whose timestamp is
not newer than the last-seen value, the refresh returns false and leaves
the issues, info messages, build info, raw output and last-seen timestamp
unchanged; the build status and build-started-at fields, however, are
overwritten from the (stale) snapshot. -/
theorem claim_c7_stale_snapshot (s : ServerState) (st : StateSnapshot)
    (hw : s.watch_mode = true) (hts : st.timestamp ≤ s.last_state_timestamp) :
    refreshFromStateFile s (some st) =
      (false, { s with build_status := st.build_status,
                       build_started_at := st.build_started_at }) := by
  simp [refreshFromStateFile, hw, hts]

/-- C7 witness: the amended statement evaluated at the concrete server and
stale snapshot. -/
theorem claim_c7_stale_snapshot_witness :
    refreshFromStateFile cexServer (some cexSnap) =
      (false, { cexServer with build_status := cexSnap.build_status,
                               build_started_at := cexSnap.build_started_at }) :=
  claim_c7_stale_snapshot cexServer cexSnap rfl (by decide)

namespace MkdocsFilter

/-- Non-blank lines, right-stripped: the content a capture section
accumulates. -/
def nbRstrip (ls : List String) : List String :=
  (ls.filter fun l => pyStrip l ≠ "").map pyRstrip

theorem nbRstrip_nil : nbRstrip [] = [] := rfl

theorem nbRstrip_cons (l : String) (rest : List String) :
    nbRstrip (l :: rest) =
      (if pyStrip l ≠ "" then [pyRstrip l] else []) ++ nbRstrip rest := by
  by_cases hb : pyStrip l = "" <;> simp [nbRstrip, hb]

theorem stopLine_empty : stopLine "" = false := by decide

/-- A stop line strips to neither of the two section markers. -/
theorem scanBlock_stop (stop : String) (rest : List String) (i : Nat) (ic io : Bool)
    (cs os : List String) (si ln : Option String)
    (h : stopLine (pyStrip stop) = true) :
    scanBlock (stop :: rest) i ic io cs os si ln = ⟨cs, os, si, ln, i⟩ := by
  have hm1 : ¬ pyStrip stop = "Code block is:" := by
    intro he; rw [he] at h; exact absurd h (by decide)
  have hm2 : ¬ pyStrip stop = "Output is:" := by
    intro he; rw [he] at h; exact absurd h (by decide)
  simp [scanBlock, hm1, hm2, h]

/-- One in-code step of the forward scan. -/
theorem scanBlock_cons_code (l : String) (rest : List String) (i : Nat)
    (cs os : List String) (si ln : Option String)
    (hstop : stopLine (pyStrip l) = false)
    (hm1 : pyStrip l ≠ "Code block is:") (hm2 : pyStrip l ≠ "Output is:") :
    scanBlock (l :: rest) i true false cs os si ln =
      scanBlock rest (i + 1) true false
        (cs ++ (if pyStrip l ≠ "" then [pyRstrip l] else [])) os si ln := by
  by_cases hb : pyStrip l = "" <;> simp [scanBlock, hm1, hm2, hstop, hb, stopLine_empty]

/-- One in-output step of the forward scan; the session/line captures are
existential because a frame match may update them. -/
theorem scanBlock_cons_out (l : String) (rest : List String) (i : Nat)
    (cs os : List String) (si ln : Option String)
    (hstop : stopLine (pyStrip l) = false)
    (hm1 : pyStrip l ≠ "Code block is:") (hm2 : pyStrip l ≠ "Output is:") :
    ∃ si' ln', scanBlock (l :: rest) i false true cs os si ln =
      scanBlock rest (i + 1) false true cs
        (os ++ (if pyStrip l ≠ "" then [pyRstrip l] else [])) si' ln' := by
  by_cases hb : pyStrip l = ""
  · exact ⟨si, ln, by simp [scanBlock, hm1, hm2, hstop, hb, stopLine_empty]⟩
  · cases hf : frameSearch (pyStrip l) with
    | none => exact ⟨si, ln, by simp [scanBlock, hm1, hm2, hstop, hb, hf]⟩
    | some p =>
      exact ⟨some p.1, some p.2, by simp [scanBlock, hm1, hm2, hstop, hb, hf]⟩

/-- The in-code phase consumes a run of non-marker non-stop lines,
accumulating their non-blank right-stripped forms. -/
theorem scanBlock_code_phase (code : List String)
    (h : ∀ l ∈ code, stopLine (pyStrip l) = false ∧
      pyStrip l ≠ "Code block is:" ∧ pyStrip l ≠ "Output is:")
    (more : List String) : ∀ (i : Nat) (cs os : List String) (si ln : Option String),
    scanBlock (code ++ more) i true false cs os si ln =
      scanBlock more (i + code.length) true false (cs ++ nbRstrip code) os si ln := by
  induction code with
  | nil => intro i cs os si ln; simp [nbRstrip]
  | cons l rest ih =>
    intro i cs os si ln
    obtain ⟨hstop, hm1, hm2⟩ := h l (by simp)
    have ih' := ih (fun x hx => h x (by simp [hx])) (i + 1)
      (cs ++ (if pyStrip l ≠ "" then [pyRstrip l] else [])) os si ln
    rw [List.cons_append, scanBlock_cons_code l (rest ++ more) i cs os si ln hstop hm1 hm2,
      ih']
    rw [show i + 1 + rest.length = i + (l :: rest).length by simp; omega]
    rw [nbRstrip_cons, ← List.append_assoc]

/-- The in-output phase consumes a run of non-marker non-stop lines,
accumulating their non-blank right-stripped forms and possibly updating the
session/line captures. -/
theorem scanBlock_out_phase (out : List String)
    (h : ∀ l ∈ out, stopLine (pyStrip l) = false ∧
      pyStrip l ≠ "Code block is:" ∧ pyStrip l ≠ "Output is:")
    (more : List String) : ∀ (i : Nat) (cs os : List String) (si ln : Option String),
    ∃ si' ln', scanBlock (out ++ more) i false true cs os si ln =
      scanBlock more (i + out.length) false true cs (os ++ nbRstrip out) si' ln' := by
  induction out with
  | nil => intro i cs os si ln; exact ⟨si, ln, by simp [nbRstrip]⟩
  | cons l rest ih =>
    intro i cs os si ln
    obtain ⟨hstop, hm1, hm2⟩ := h l (by simp)
    obtain ⟨s1, l1, h1⟩ := scanBlock_cons_out l (rest ++ more) i cs os si ln hstop hm1 hm2
    obtain ⟨s2, l2, h2⟩ := ih (fun x hx => h x (by simp [hx])) (i + 1)
      cs (os ++ (if pyStrip l ≠ "" then [pyRstrip l] else [])) s1 l1
    refine ⟨s2, l2, ?_⟩
    rw [List.cons_append, h1, h2]
    rw [show i + 1 + rest.length = i + (l :: rest).length by simp; omega]
    rw [nbRstrip_cons, ← List.append_assoc]

/-- Full evaluation of parse_markdown_exec_issue on a well-formed record:
a header at the start index, the code marker, code lines, the output
marker, output lines, then a stop line that is not consumed. -/
theorem parse_mdexec_record (pre code out rest : List String) (header stop : String)
    (level : Level)
    (hcode : ∀ l ∈ code, stopLine (pyStrip l) = false ∧
      pyStrip l ≠ "Code block is:" ∧ pyStrip l ≠ "Output is:")
    (hout : ∀ l ∈ out, stopLine (pyStrip l) = false ∧
      pyStrip l ≠ "Code block is:" ∧ pyStrip l ≠ "Output is:")
    (hstop : stopLine (pyStrip stop) = true) :
    ∃ si ln,
      parse_markdown_exec_issue
        (pre ++ header :: "Code block is:" :: (code ++ "Output is:" :: (out ++ stop :: rest)))
        pre.length level =
      (some
        { level := level
          source := "markdown_exec"
          message := findErrMsg (nbRstrip out)
          file := locationStr
            (lookBack (pre ++ header :: "Code block is:" ::
              (code ++ "Output is:" :: (out ++ stop :: rest))) pre.length) si ln
          code := optJoin (nbRstrip code)
          output := optJoin (nbRstrip out) },
       pre.length + code.length + out.length + 3) := by
  have hdrop :
      (pre ++ header :: "Code block is:" ::
        (code ++ "Output is:" :: (out ++ stop :: rest))).drop (pre.length + 1) =
      "Code block is:" :: (code ++ "Output is:" :: (out ++ stop :: rest)) := by
    rw [show pre ++ header :: "Code block is:" ::
        (code ++ "Output is:" :: (out ++ stop :: rest)) =
        (pre ++ [header]) ++
          ("Code block is:" :: (code ++ "Output is:" :: (out ++ stop :: rest))) by simp]
    rw [show pre.length + 1 = (pre ++ [header]).length by simp]
    exact List.drop_left _ _
  have h1 : scanBlock
      ("Code block is:" :: (code ++ "Output is:" :: (out ++ stop :: rest)))
      (pre.length + 1) false false [] [] none none =
      scanBlock (code ++ "Output is:" :: (out ++ stop :: rest))
        (pre.length + 1 + 1) true false [] [] none none := by
    simp [scanBlock, show pyStrip "Code block is:" = "Code block is:" from by decide]
  have h2 := scanBlock_code_phase code hcode ("Output is:" :: (out ++ stop :: rest))
    (pre.length + 1 + 1) [] [] none none
  have h3 : scanBlock ("Output is:" :: (out ++ stop :: rest))
      (pre.length + 1 + 1 + code.length) true false ([] ++ nbRstrip code) [] none none =
      scanBlock (out ++ stop :: rest) (pre.length + 1 + 1 + code.length + 1) false true
        ([] ++ nbRstrip code) [] none none := by
    simp [scanBlock, show pyStrip "Output is:" = "Output is:" from by decide,
      show ¬ ("Output is:" : String) = "Code block is:" from by decide]
  obtain ⟨si, ln, h4⟩ := scanBlock_out_phase out hout (stop :: rest)
    (pre.length + 1 + 1 + code.length + 1) ([] ++ nbRstrip code) [] none none
  have h5 := scanBlock_stop stop rest (pre.length + 1 + 1 + code.length + 1 + out.length)
    false true ([] ++ nbRstrip code) ([] ++ nbRstrip out) si ln hstop
  refine ⟨si, ln, ?_⟩
  simp only [parse_markdown_exec_issue, hdrop, h1, h2, h3, h4, h5]
  simp only [List.nil_append]
  refine Prod.ext rfl ?_
  simp only
  omega

end MkdocsFilter

namespace MkdocsFilter

theorem findErrMsgRev_skip (xs ys : List String) (h : ∀ l ∈ xs, errLine l = false) :
    findErrMsgRev (xs ++ ys) = findErrMsgRev ys := by
  induction xs with
  | nil => rfl
  | cons l rest ih =>
    have hl : errLine l = false := h l (by simp)
    simp only [List.cons_append, findErrMsgRev, hl]
    simp only [Bool.false_eq_true, if_false]
    exact ih (fun x hx => h x (by simp [hx]))

theorem findErrMsg_select (o1 o2 : List String) (e : String)
    (he : errLine e = true) (ho2 : ∀ l ∈ o2, errLine l = false) :
    findErrMsg (o1 ++ e :: o2) = pyStrip e := by
  unfold findErrMsg
  rw [List.reverse_append, List.reverse_cons, List.append_assoc]
  rw [findErrMsgRev_skip o2.reverse _ (fun l hl => ho2 l (List.mem_reverse.mp hl))]
  simp [findErrMsgRev, he]

theorem findErrMsg_default (os : List String) (h : ∀ l ∈ os, errLine l = false) :
    findErrMsg os = "Code execution failed" := by
  unfold findErrMsg
  have h2 : ∀ l ∈ os.reverse, errLine l = false := fun l hl => h l (List.mem_reverse.mp hl)
  have h3 := findErrMsgRev_skip os.reverse [] h2
  simpa using h3

theorem findErrMsgRev_ne_empty (os : List String) : findErrMsgRev os ≠ "" := by
  induction os with
  | nil => simp [findErrMsgRev]
  | cons l rest ih =>
    simp only [findErrMsgRev]
    split
    · rename_i h
      simp only [errLine, Bool.and_eq_true, decide_eq_true_eq] at h
      exact h.1.1
    · exact ih

end MkdocsFilter

/-- C2: on a well-formed markdown_exec record (header at the start index, a
"Code block is:" marker, code lines, an "Output is:" marker, output lines,
then a line matching a top-level log-line shape), the reconstructed Issue's
code and output fields hold exactly the non-blank lines of the respective
sections (right-stripped, newline-joined) and the returned end index is the
index of the top-level line, which is not consumed. -/
theorem claim_c2_record_boundary (pre code out rest : List String) (header stop : String)
    (level : Level)
    (hcode : ∀ l ∈ code, stopLine (pyStrip l) = false ∧
      pyStrip l ≠ "Code block is:" ∧ pyStrip l ≠ "Output is:")
    (hout : ∀ l ∈ out, stopLine (pyStrip l) = false ∧
      pyStrip l ≠ "Code block is:" ∧ pyStrip l ≠ "Output is:")
    (hstop : stopLine (pyStrip stop) = true) :
    (parse_markdown_exec_issue
      (pre ++ header :: "Code block is:" :: (code ++ "Output is:" :: (out ++ stop :: rest)))
      pre.length level).2 = pre.length + code.length + out.length + 3 ∧
    ((parse_markdown_exec_issue
      (pre ++ header :: "Code block is:" :: (code ++ "Output is:" :: (out ++ stop :: rest)))
      pre.length level).1.map MkdocsFilter.Issue.code) = some (optJoin (nbRstrip code)) ∧
    ((parse_markdown_exec_issue
      (pre ++ header :: "Code block is:" :: (code ++ "Output is:" :: (out ++ stop :: rest)))
      pre.length level).1.map MkdocsFilter.Issue.output) = some (optJoin (nbRstrip out)) := by
  obtain ⟨si, ln, heq⟩ :=
    parse_mdexec_record pre code out rest header stop level hcode hout hstop
  rw [heq]
  simp

/-- C2 witness: a concrete record with one code line, one non-blank and one
blank output line, a following INFO line (index 7, not consumed) and a
trailing line. -/
theorem claim_c2_record_boundary_witness :
    (parse_markdown_exec_issue
      (["INFO -  start"] ++
        "WARNING -  markdown_exec: Execution of code block exited with errors" ::
        "Code block is:" ::
        (["x = 1"] ++ "Output is:" :: (["boom", ""] ++ "INFO -  next" :: ["tail"])))
      (["INFO -  start"] : List String).length Level.WARNING).2 = 7 ∧
    ((parse_markdown_exec_issue
      (["INFO -  start"] ++
        "WARNING -  markdown_exec: Execution of code block exited with errors" ::
        "Code block is:" ::
        (["x = 1"] ++ "Output is:" :: (["boom", ""] ++ "INFO -  next" :: ["tail"])))
      (["INFO -  start"] : List String).length Level.WARNING).1.map MkdocsFilter.Issue.code) =
      some (some "x = 1") ∧
    ((parse_markdown_exec_issue
      (["INFO -  start"] ++
        "WARNING -  markdown_exec: Execution of code block exited with errors" ::
        "Code block is:" ::
        (["x = 1"] ++ "Output is:" :: (["boom", ""] ++ "INFO -  next" :: ["tail"])))
      (["INFO -  start"] : List String).length Level.WARNING).1.map MkdocsFilter.Issue.output) =
      some (some "boom") :=
  claim_c2_record_boundary ["INFO -  start"] ["x = 1"] ["boom", ""] ["tail"]
    "WARNING -  markdown_exec: Execution of code block exited with errors" "INFO -  next"
    Level.WARNING (by decide) (by decide) (by decide)

/-- C3 counterexample: a warning class name followed by a colon is not
recognised by the reverse scan (the source only looks for the substrings
"Error:" and "Exception:"), so the message falls back to the placeholder
instead of the warning line the claim requires. -/
theorem claim_c3_counterexample :
    ((parse_markdown_exec_issue
      ["WARNING -  markdown_exec: Execution of code block exited with errors",
       "Code block is:", "import x", "Output is:",
       "DeprecationWarning: x is deprecated", "INFO -  done"] 0 Level.WARNING).1.map
        MkdocsFilter.Issue.message) = some "Code execution failed" ∧
    ¬ ((parse_markdown_exec_issue
      ["WARNING -  markdown_exec: Execution of code block exited with errors",
       "Code block is:", "import x", "Output is:",
       "DeprecationWarning: x is deprecated", "INFO -  done"] 0 Level.WARNING).1.map
        MkdocsFilter.Issue.message) = some "DeprecationWarning: x is deprecated" := by
  constructor
  · decide
  · decide

/-- C3 (amended): the message is chosen by scanning the captured output
lines in reverse; the first line (from the end) containing "Error:" or
"Exception:" as a substring and not starting with "File " becomes the
message (warning class names are not recognised); when no captured line
qualifies, the message is the placeholder "Code execution failed". -/
theorem claim_c3_reverse_error_selection (pre code out rest : List String)
    (header stop : String) (level : Level)
    (hcode : ∀ l ∈ code, stopLine (pyStrip l) = false ∧
      pyStrip l ≠ "Code block is:" ∧ pyStrip l ≠ "Output is:")
    (hout : ∀ l ∈ out, stopLine (pyStrip l) = false ∧
      pyStrip l ≠ "Code block is:" ∧ pyStrip l ≠ "Output is:")
    (hstop : stopLine (pyStrip stop) = true) :
    (∀ o1 o2 (e : String), nbRstrip out = o1 ++ e :: o2 → errLine e = true →
      (∀ l ∈ o2, errLine l = false) →
      ((parse_markdown_exec_issue
        (pre ++ header :: "Code block is:" :: (code ++ "Output is:" :: (out ++ stop :: rest)))
        pre.length level).1.map MkdocsFilter.Issue.message) = some (pyStrip e)) ∧
    ((∀ l ∈ nbRstrip out, errLine l = false) →
      ((parse_markdown_exec_issue
        (pre ++ header :: "Code block is:" :: (code ++ "Output is:" :: (out ++ stop :: rest)))
        pre.length level).1.map MkdocsFilter.Issue.message) = some "Code execution failed") := by
  obtain ⟨si, ln, heq⟩ :=
    parse_mdexec_record pre code out rest header stop level hcode hout hstop
  constructor
  · intro o1 o2 e hdec he ho2
    rw [heq]
    simp only [Option.map_some']
    rw [hdec, findErrMsg_select o1 o2 e he ho2]
  · intro hall
    rw [heq]
    simp only [Option.map_some']
    rw [findErrMsg_default _ hall]

/-- C3 witness: output with benign lines around exactly one ValueError line;
the reconstructed message is the ValueError line although it is not the
last output line. -/
theorem claim_c3_reverse_error_selection_witness :
    ((parse_markdown_exec_issue
      ([] ++ "WARNING -  markdown_exec: Execution of code block exited with errors" ::
        "Code block is:" ::
        (["import y"] ++ "Output is:" ::
          (["benign one", "ValueError: boom", "benign two"] ++ "INFO -  next" :: [])))
      ([] : List String).length Level.WARNING).1.map MkdocsFilter.Issue.message) =
      some "ValueError: boom" :=
  (claim_c3_reverse_error_selection [] ["import y"]
      ["benign one", "ValueError: boom", "benign two"] []
      "WARNING -  markdown_exec: Execution of code block exited with errors" "INFO -  next"
      Level.WARNING (by decide) (by decide) (by decide)).1
    ["benign one"] ["benign two"] "ValueError: boom" (by decide) (by decide) (by decide)

/-- C10: parse_markdown_exec_issue never returns a None issue: for any line
list, start index inside it and level, the first component is an Issue with
source "markdown_exec", the given level and a non-empty message, and the
end index is strictly greater than the start index. -/
theorem claim_c10_always_returns_issue (lines : List String) (start : Nat) (level : Level)
    (_h : start < lines.length) :
    ∃ issue : MkdocsFilter.Issue,
      (parse_markdown_exec_issue lines start level).1 = some issue ∧
      issue.source = "markdown_exec" ∧ issue.level = level ∧ issue.message ≠ "" ∧
      start < (parse_markdown_exec_issue lines start level).2 := by
  refine ⟨_, rfl, rfl, rfl, ?_, parse_mdexec_end_gt lines start level⟩
  exact findErrMsgRev_ne_empty _

/-- C10 witness: the theorem at a one-line list and start index 0. -/
theorem claim_c10_always_returns_issue_witness :
    0 < (["WARNING -  markdown_exec boom"] : List String).length ∧
    (∃ issue : MkdocsFilter.Issue,
      (parse_markdown_exec_issue ["WARNING -  markdown_exec boom"] 0 Level.WARNING).1 =
        some issue ∧
      issue.source = "markdown_exec" ∧ issue.level = Level.WARNING ∧ issue.message ≠ "" ∧
      0 < (parse_markdown_exec_issue ["WARNING -  markdown_exec boom"] 0 Level.WARNING).2) :=
  ⟨by decide,
   claim_c10_always_returns_issue ["WARNING -  markdown_exec boom"] 0 Level.WARNING
     (by decide)⟩
